import Mathlib

/-!
Verification of the rate-limiting core of the Noti project
(`apps/core/rate_limiting.py`, `apps/core/middleware.py`,
`apps/core/exception_handler.py`), embedded shallowly in Lean.

The Redis sorted set under one key stores members `str(t)` with score `t`
(`pipe.zadd(redis_key, {str(now): now})`), so the set of members is in
bijection with the set of integer scores; we represent a sorted set by the
list of its scores, kept duplicate-free by `zadd`.  Machine time
`int(time.time())` and all arithmetic is modelled on `Int`; Python's floor
division `//` is `Int.fdiv`.
-/

/-- State of the Redis store: for every Redis key, the scores present in the
sorted set stored there, and the key's TTL (set by `pipe.expire`). -/
structure RedisState where
  zset : String → List Int
  ttl : String → Option Int

/-- A store with no keys. -/
def RedisState.empty : RedisState := ⟨fun _ => [], fun _ => none⟩

/-- `ZREMRANGEBYSCORE key lo hi`: removes the members whose score lies in
`[lo, hi]`, keeping the rest in order. -/
def zremrangebyscore (s : List Int) (lo hi : Int) : List Int :=
  s.filter fun x => !(decide (lo ≤ x) && decide (x ≤ hi))

/-- `ZADD key {str(t): t}`: inserts member `str(t)` with score `t`; when the
member is already present only its (identical) score is updated, so the set
is unchanged. -/
def zadd (s : List Int) (t : Int) : List Int :=
  if t ∈ s then s else s ++ [t]

/-- Result dictionary of `RedisRateLimiter.is_allowed`. -/
structure RateDecision where
  allowed : Bool
  remaining : Int
  reset_time : Int
  retry_after : Int
  limit : Int
  window : Int
  identifier : Option String
deriving DecidableEq

/-- `redis_key = f"rate_limit:{key}:{window_start // window}"` with
`window_start = now - window`. -/
def redisKeyFor (key : String) (window now : Int) : String :=
  "rate_limit:" ++ key ++ ":" ++ toString (Int.fdiv (now - window) window)

/-- Replies of the four pipelined commands
(`zremrangebyscore`, `zcard`, `zadd`, `expire`), in order:
number removed, cardinality after removal, number added, expire reply. -/
def pipelineResults (s0 : List Int) (window_start now : Int) : List Int :=
  let s1 := zremrangebyscore s0 0 window_start
  let s2 := zadd s1 now
  [(s0.length : Int) - s1.length, (s1.length : Int), (s2.length : Int) - s1.length, 1]

/-- Effect of the pipelined batch on the store: at `redis_key`, expired
entries are removed, `now` is inserted, and the TTL is set to `window`;
every other key is untouched. -/
def applyPipeline (st : RedisState) (redis_key : String) (window_start window now : Int) :
    RedisState :=
  let s2 := zadd (zremrangebyscore (st.zset redis_key) 0 window_start) now
  ⟨fun k => if k = redis_key then s2 else st.zset k,
   fun k => if k = redis_key then some window else st.ttl k⟩

/-- `pipe.execute()`: atomically runs the four queued commands and returns
their replies, or raises (modelled as `Except.error`) when the store is
unavailable. -/
def pipelineExec (storeHealthy : Bool) (st : RedisState) (redis_key : String)
    (window_start window now : Int) : Except String (List Int × RedisState) :=
  if storeHealthy then
    Except.ok (pipelineResults (st.zset redis_key) window_start now,
               applyPipeline st redis_key window_start window now)
  else Except.error "ServiceUnavailable"

/-- `RedisRateLimiter.is_allowed(key, limit, window, identifier)` at clock
second `now = int(time.time())`.  A store failure in `pipe.execute()`
propagates; otherwise the decision dictionary and the updated store are
returned. -/
def is_allowed (storeHealthy : Bool) (st : RedisState) (key : String)
    (limit window now : Int) (identifier : Option String) :
    Except String (RateDecision × RedisState) := do
  let window_start := now - window
  let redis_key := redisKeyFor key window now
  let (results, st') ← pipelineExec storeHealthy st redis_key window_start window now
  let current_count : Int := results.getD 1 0
  let allowed : Bool := decide (current_count < limit)
  let remaining : Int := if allowed then max 0 (limit - current_count - 1) else 0
  let reset_time := window_start + window
  pure ({ allowed := allowed, remaining := remaining, reset_time := reset_time,
          retry_after := if allowed then 0 else reset_time - now,
          limit := limit, window := window, identifier := identifier }, st')

/-- Count of entries surviving removal, read before the insert
(`results[1]`): the basis of the allow/deny decision. -/
def count_before (st : RedisState) (key : String) (window now : Int) : Int :=
  ((zremrangebyscore (st.zset (redisKeyFor key window now)) 0 (now - window)).length : Int)

/-- The decision dictionary produced from a pre-insert count `c`. -/
def decisionOf (c limit window now : Int) (identifier : Option String) : RateDecision :=
  let allowed : Bool := decide (c < limit)
  { allowed := allowed,
    remaining := if allowed then max 0 (limit - c - 1) else 0,
    reset_time := (now - window) + window,
    retry_after := if allowed then 0 else ((now - window) + window) - now,
    limit := limit, window := window, identifier := identifier }

/-- Projection of a successful check to its decision (for a healthy store the
error branch is unreachable). -/
def checkD (st : RedisState) (key : String) (limit window now : Int)
    (identifier : Option String) : RateDecision :=
  match is_allowed true st key limit window now identifier with
  | .ok (d, _) => d
  | .error _ => ⟨false, 0, 0, 0, 0, 0, none⟩

/-- Projection of a successful check to the updated store. -/
def checkS (st : RedisState) (key : String) (limit window now : Int)
    (identifier : Option String) : RedisState :=
  match is_allowed true st key limit window now identifier with
  | .ok (_, st') => st'
  | .error _ => st

theorem is_allowed_true_eq (st : RedisState) (key : String) (limit window now : Int)
    (identifier : Option String) :
    is_allowed true st key limit window now identifier =
      Except.ok (decisionOf (count_before st key window now) limit window now identifier,
                 applyPipeline st (redisKeyFor key window now) (now - window) window now) := rfl

theorem checkD_eq (st : RedisState) (key : String) (limit window now : Int)
    (identifier : Option String) :
    checkD st key limit window now identifier =
      decisionOf (count_before st key window now) limit window now identifier := rfl

theorem checkS_eq (st : RedisState) (key : String) (limit window now : Int)
    (identifier : Option String) :
    checkS st key limit window now identifier =
      applyPipeline st (redisKeyFor key window now) (now - window) window now := rfl

/-- **C1** (code bug witness computation).  Scenario A of the spec: fresh key,
`limit=5`, `window=60`, six calls in the same second `t0 = 1000`.  The code
returns `allowed=true, remaining=3, retry_after=0` for the sixth call, not
the denial with `remaining=0, retry_after=60` that the spec (and the repo's
own `test_redis_rate_limiter_basic`) require: all six calls `zadd` the same
member `str(1000)`, so the pre-insert count stays at 1 from the second call
on, and `retry_after = (now - window) + window - now = 0` whenever denial
does occur. -/
theorem C1_sixth_call_is_allowed :
    (do
      let (_, st1) ← is_allowed true RedisState.empty "user:1" 5 60 1000 (some "t0")
      let (_, st2) ← is_allowed true st1 "user:1" 5 60 1000 (some "t1")
      let (_, st3) ← is_allowed true st2 "user:1" 5 60 1000 (some "t2")
      let (_, st4) ← is_allowed true st3 "user:1" 5 60 1000 (some "t3")
      let (_, st5) ← is_allowed true st4 "user:1" 5 60 1000 (some "t4")
      let (d6, _) ← is_allowed true st5 "user:1" 5 60 1000 (some "t5")
      pure (d6.allowed, d6.remaining, d6.retry_after) :
        Except String (Bool × Int × Int)) = Except.ok (true, 3, 0) := by rfl

/-- **C2** (code bug witness computation).  Fresh key, `limit=3`,
`window=60`, three calls at `t0 = 1000`: the returned `remaining` values are
`2, 1, 1`, not the strictly decreasing `2, 1, 0` claimed by P1 and asserted
by `test_redis_rate_limiter_basic` — the second and third call observe the
same pre-insert count 1 because they insert the same member `str(1000)`. -/
theorem C2_remaining_not_strictly_decreasing :
    (do
      let (d1, st1) ← is_allowed true RedisState.empty "user:1" 3 60 1000 none
      let (d2, st2) ← is_allowed true st1 "user:1" 3 60 1000 none
      let (d3, _) ← is_allowed true st2 "user:1" 3 60 1000 none
      pure (d1.remaining, d2.remaining, d3.remaining) :
        Except String (Int × Int × Int)) = Except.ok (2, 1, 1) := by rfl

/-- **C4** (code bug witness computation).  `limit=5`, `window=60`: two calls
at second 59 leave a single stored entry `[59]` (the second call re-adds the
member `str(59)`, recording nothing new), and a third call two seconds later
at 61 — within the same 60-second window, with the entry 59 not yet expired —
observes `remaining=4`, i.e. a pre-insert count of 0, lower than the count 1
the second call observed: the Redis key rotates its `window_start // window`
suffix, so the claimed monotonicity of `count_before` fails. -/
theorem C4_entry_not_recorded_and_count_drops :
    (do
      let (d1, st1) ← is_allowed true RedisState.empty "user:1" 5 60 59 none
      let (d2, st2) ← is_allowed true st1 "user:1" 5 60 59 none
      let (d3, _) ← is_allowed true st2 "user:1" 5 60 61 none
      pure (st2.zset (redisKeyFor "user:1" 60 59), d1.remaining, d2.remaining, d3.remaining) :
        Except String (List Int × Int × Int × Int))
      = Except.ok ([59], 4, 3, 4) := by rfl

/-- **C7**: with the backing store unavailable, `pipe.execute()` raises and
`is_allowed` — having no handler — propagates the failure: the result is the
error, never an `Except.ok` carrying a `RateDecision`. -/
theorem C7_store_failure_propagates (st : RedisState) (key : String)
    (limit window now : Int) (identifier : Option String) :
    is_allowed false st key limit window now identifier =
      Except.error "ServiceUnavailable" := rfl

theorem mem_zremrangebyscore {s : List Int} {lo hi x : Int} :
    x ∈ zremrangebyscore s lo hi ↔ x ∈ s ∧ ¬(lo ≤ x ∧ x ≤ hi) := by
  simp [zremrangebyscore, List.mem_filter]
  intro _
  omega

theorem mem_zadd_self (s : List Int) (t : Int) : t ∈ zadd s t := by
  unfold zadd
  split
  · assumption
  · simp

theorem mem_zadd {s : List Int} {t x : Int} (h : x ∈ zadd s t) : x = t ∨ x ∈ s := by
  unfold zadd at h
  split at h
  · exact Or.inr h
  · rcases List.mem_append.mp h with h | h
    · exact Or.inr h
    · exact Or.inl (by simpa using h)

/-- **C3**: one pipelined batch for `key` at time `now`, window `W` (on a
store whose entries are nonnegative, as produced by real clock readings):
(1) the removal step drops exactly the entries with timestamp `≤ now - W`,
(2) the allow/deny decision compares the pre-insert count `count_before` to
the limit, (3) the updated store contains an entry timestamped `now` and
nothing beyond the survivors plus that entry, and (4) the key's TTL is set
to exactly `window` seconds. -/
theorem C3_record_and_count (st : RedisState) (key : String) (limit window now : Int)
    (identifier : Option String)
    (hpos : (st.zset (redisKeyFor key window now)).all (fun x => decide (0 ≤ x)) = true) :
    zremrangebyscore (st.zset (redisKeyFor key window now)) 0 (now - window)
        = (st.zset (redisKeyFor key window now)).filter (fun x => decide (now - window < x))
    ∧ (checkD st key limit window now identifier).allowed
        = decide (count_before st key window now < limit)
    ∧ now ∈ (checkS st key limit window now identifier).zset (redisKeyFor key window now)
    ∧ ((checkS st key limit window now identifier).zset (redisKeyFor key window now)).all
        (fun x => decide (x = now) ||
          decide (x ∈ zremrangebyscore (st.zset (redisKeyFor key window now)) 0 (now - window)))
        = true
    ∧ (checkS st key limit window now identifier).ttl (redisKeyFor key window now)
        = some window := by
  rw [List.all_eq_true] at hpos
  refine ⟨?_, ?_, ?_, ?_, ?_⟩
  · unfold zremrangebyscore
    apply List.filter_congr
    intro x hx
    have h0 : (0 : Int) ≤ x := by simpa using hpos x hx
    by_cases h : x ≤ now - window <;> simp [h0, h] <;> omega
  · rw [checkD_eq]
    unfold decisionOf
    rfl
  · rw [checkS_eq]
    unfold applyPipeline
    simp only [if_pos rfl]
    exact mem_zadd_self _ _
  · rw [checkS_eq]
    unfold applyPipeline
    simp only [if_pos rfl]
    rw [List.all_eq_true]
    intro x hx
    rcases mem_zadd hx with h | h <;> simp [h]
  · rw [checkS_eq]
    unfold applyPipeline
    simp

/-- Closed instance of `C3_record_and_count`: a key holding entries
`[930, 941, 999]` checked with `limit=5`, `window=60` at `now=1000`. -/
theorem C3_record_and_count_witness :
    ((RedisState.mk
        (fun k => if k = redisKeyFor "user:1" 60 1000 then [930, 941, 999] else [])
        (fun _ => none)).zset (redisKeyFor "user:1" 60 1000)).all
          (fun x => decide (0 ≤ x)) = true
    ∧ (zremrangebyscore
        ((RedisState.mk
          (fun k => if k = redisKeyFor "user:1" 60 1000 then [930, 941, 999] else [])
          (fun _ => none)).zset (redisKeyFor "user:1" 60 1000)) 0 (1000 - 60)
        = ((RedisState.mk
          (fun k => if k = redisKeyFor "user:1" 60 1000 then [930, 941, 999] else [])
          (fun _ => none)).zset (redisKeyFor "user:1" 60 1000)).filter
            (fun x => decide (1000 - 60 < x))
    ∧ (checkD (RedisState.mk
          (fun k => if k = redisKeyFor "user:1" 60 1000 then [930, 941, 999] else [])
          (fun _ => none)) "user:1" 5 60 1000 none).allowed
        = decide (count_before (RedisState.mk
          (fun k => if k = redisKeyFor "user:1" 60 1000 then [930, 941, 999] else [])
          (fun _ => none)) "user:1" 60 1000 < 5)
    ∧ (1000 : Int) ∈ (checkS (RedisState.mk
          (fun k => if k = redisKeyFor "user:1" 60 1000 then [930, 941, 999] else [])
          (fun _ => none)) "user:1" 5 60 1000 none).zset (redisKeyFor "user:1" 60 1000)
    ∧ ((checkS (RedisState.mk
          (fun k => if k = redisKeyFor "user:1" 60 1000 then [930, 941, 999] else [])
          (fun _ => none)) "user:1" 5 60 1000 none).zset (redisKeyFor "user:1" 60 1000)).all
        (fun x => decide (x = (1000 : Int)) ||
          decide (x ∈ zremrangebyscore ((RedisState.mk
            (fun k => if k = redisKeyFor "user:1" 60 1000 then [930, 941, 999] else [])
            (fun _ => none)).zset (redisKeyFor "user:1" 60 1000)) 0 (1000 - 60)))
        = true
    ∧ (checkS (RedisState.mk
          (fun k => if k = redisKeyFor "user:1" 60 1000 then [930, 941, 999] else [])
          (fun _ => none)) "user:1" 5 60 1000 none).ttl (redisKeyFor "user:1" 60 1000)
        = some 60) :=
  ⟨by decide, C3_record_and_count _ "user:1" 5 60 1000 none (by decide)⟩

/-- **C5**: if every stored entry under the key's current Redis key is a real
clock reading no later than `t0` (in particular, after quota exhaustion at
`t0`), then a check at any time `now > t0 + W` with limit `L ≥ 1` is allowed
again with `remaining = L - 1`: the removal step empties the set, so the
pre-insert count is `0`. -/
theorem C5_window_expiry (st : RedisState) (key : String) (L W t0 now : Int)
    (identifier : Option String)
    (hL : 1 ≤ L)
    (hent : (st.zset (redisKeyFor key W now)).all
      (fun x => decide (0 ≤ x) && decide (x ≤ t0)) = true)
    (ht : t0 + W < now) :
    (checkD st key L W now identifier).allowed = true
    ∧ (checkD st key L W now identifier).remaining = L - 1 := by
  rw [List.all_eq_true] at hent
  have hcount : count_before st key W now = 0 := by
    unfold count_before
    have : zremrangebyscore (st.zset (redisKeyFor key W now)) 0 (now - W) = [] := by
      unfold zremrangebyscore
      rw [List.filter_eq_nil_iff]
      intro x hx
      have hx' := hent x hx
      simp at hx' ⊢
      omega
    simp [this]
  rw [checkD_eq, hcount]
  unfold decisionOf
  have hallow : decide ((0 : Int) < L) = true := by simp; omega
  refine ⟨by simpa using hallow, ?_⟩
  simp only [hallow]
  simp
  omega

/-- Closed instance of `C5_window_expiry`: a key exhausted at `t0 = 1000`
(stored entry `[1000]`), re-checked at `now = 1061 > 1000 + 60` with
`L = 5`: allowed again with `remaining = 4`. -/
theorem C5_window_expiry_witness :
    (1 : Int) ≤ 5
    ∧ ((RedisState.mk
        (fun k => if k = redisKeyFor "user:1" 60 1061 then [1000] else [])
        (fun _ => none)).zset (redisKeyFor "user:1" 60 1061)).all
          (fun x => decide (0 ≤ x) && decide (x ≤ (1000 : Int))) = true
    ∧ (1000 : Int) + 60 < 1061
    ∧ ((checkD (RedisState.mk
        (fun k => if k = redisKeyFor "user:1" 60 1061 then [1000] else [])
        (fun _ => none)) "user:1" 5 60 1061 none).allowed = true
      ∧ (checkD (RedisState.mk
        (fun k => if k = redisKeyFor "user:1" 60 1061 then [1000] else [])
        (fun _ => none)) "user:1" 5 60 1061 none).remaining = 5 - 1) :=
  ⟨by decide, by decide, by decide,
   C5_window_expiry _ "user:1" 5 60 1000 1061 none (by decide) (by decide) (by decide)⟩

theorem zrem_idem (s : List Int) (lo hi : Int) :
    zremrangebyscore (zremrangebyscore s lo hi) lo hi = zremrangebyscore s lo hi := by
  unfold zremrangebyscore
  apply List.filter_eq_self.mpr
  intro a ha
  exact (List.mem_filter.mp ha).2

theorem zadd_mem_eq {s : List Int} {t : Int} (h : t ∈ s) : zadd s t = s := by
  unfold zadd
  simp [h]

theorem zrem_zadd_now {s : List Int} {window now : Int} (hW : 0 < window) :
    zremrangebyscore (zadd (zremrangebyscore s 0 (now - window)) now) 0 (now - window)
      = zadd (zremrangebyscore s 0 (now - window)) now := by
  unfold zremrangebyscore
  apply List.filter_eq_self.mpr
  intro a ha
  rcases mem_zadd ha with rfl | ha'
  · simp
    omega
  · exact (List.mem_filter.mp ha').2

theorem checkS_idem (st : RedisState) (key : String) (L W now : Int)
    (identifier : Option String) (hW : 0 < W) :
    checkS (checkS st key L W now identifier) key L W now identifier
      = checkS st key L W now identifier := by
  simp only [checkS_eq, applyPipeline]
  simp only [RedisState.mk.injEq]
  constructor
  · funext k
    by_cases h : k = redisKeyFor key W now
    · subst h
      simp only [if_pos rfl, if_true]
      rw [zrem_zadd_now hW, zadd_mem_eq (mem_zadd_self _ _)]
    · simp [h]
  · funext k
    by_cases h : k = redisKeyFor key W now <;> simp [h]

/-- Store after `n` successive `is_allowed` calls for the same key, limit,
window and clock second. -/
def iterCheck (st : RedisState) (key : String) (limit window now : Int)
    (identifier : Option String) : Nat → RedisState
  | 0 => st
  | n + 1 => checkS (iterCheck st key limit window now identifier n) key limit window now identifier

theorem iterCheck_succ_eq (st : RedisState) (key : String) (L W now : Int)
    (identifier : Option String) (hW : 0 < W) (n : Nat) :
    iterCheck st key L W now identifier (n + 1) = checkS st key L W now identifier := by
  induction n with
  | zero => rfl
  | succ m ih =>
      show checkS (iterCheck st key L W now identifier (m + 1)) key L W now identifier = _
      rw [ih, checkS_idem st key L W now identifier hW]

/-- **C10**: same-second collision.  Each call `zadd`s the member `str(now)`,
so (i) a second call in the same clock second leaves the store exactly as the
first did, (ii) one call adds at most the single member `now` to the key's
stored entries, and (iii) for a fresh key with `limit ≥ 2` (and a positive
window) every call of a sequence confined to the single second `now` is
allowed: from the second call on the pre-insert count is stuck at 1. -/
theorem C10_same_second_collision (st : RedisState) (key : String) (L W now : Int)
    (identifier : Option String) (k : Nat)
    (hL : 2 ≤ L) (hW : 0 < W)
    (hfresh : st.zset (redisKeyFor key W now) = []) :
    checkS (checkS st key L W now identifier) key L W now identifier
        = checkS st key L W now identifier
    ∧ ((checkS st key L W now identifier).zset (redisKeyFor key W now)).all
        (fun x => decide (x = now) || decide (x ∈ st.zset (redisKeyFor key W now))) = true
    ∧ (checkD (iterCheck st key L W now identifier k) key L W now identifier).allowed
        = true := by
  refine ⟨checkS_idem st key L W now identifier hW, ?_, ?_⟩
  · rw [checkS_eq]
    simp only [applyPipeline, if_pos rfl]
    rw [List.all_eq_true]
    intro x hx
    rcases mem_zadd hx with rfl | hx'
    · simp
    · have := List.mem_of_mem_filter hx'
      simp [this]
  · have hnow : (decide (now ≤ now - W)) = false := by
      simp
      omega
    cases k with
    | zero =>
        have hc : count_before st key W now = 0 := by
          unfold count_before zremrangebyscore
          rw [hfresh]
          rfl
        show (checkD st key L W now identifier).allowed = true
        rw [checkD_eq, hc]
        unfold decisionOf
        simp
        omega
    | succ n =>
        rw [iterCheck_succ_eq st key L W now identifier hW n]
        have h1 : (checkS st key L W now identifier).zset (redisKeyFor key W now)
            = [now] := by
          rw [checkS_eq]
          simp only [applyPipeline, if_pos rfl]
          rw [hfresh]
          simp [zremrangebyscore, zadd]
        have hc : count_before (checkS st key L W now identifier) key W now = 1 := by
          unfold count_before
          rw [h1]
          have hz : zremrangebyscore [now] 0 (now - W) = [now] := by
            unfold zremrangebyscore
            apply List.filter_eq_self.mpr
            intro a ha
            simp at ha
            subst ha
            simp
            omega
          rw [hz]
          rfl
        rw [checkD_eq, hc]
        unfold decisionOf
        simp
        omega

/-- Closed instance of `C10_same_second_collision`: fresh key, `limit=2`,
`window=60`, calls all at second 1000; the fourth call is still allowed. -/
theorem C10_same_second_collision_witness :
    (2 : Int) ≤ 2 ∧ (0 : Int) < 60
    ∧ RedisState.empty.zset (redisKeyFor "user:1" 60 1000) = []
    ∧ (checkS (checkS RedisState.empty "user:1" 2 60 1000 none) "user:1" 2 60 1000 none
          = checkS RedisState.empty "user:1" 2 60 1000 none
      ∧ ((checkS RedisState.empty "user:1" 2 60 1000 none).zset
            (redisKeyFor "user:1" 60 1000)).all
          (fun x => decide (x = (1000 : Int)) ||
            decide (x ∈ RedisState.empty.zset (redisKeyFor "user:1" 60 1000))) = true
      ∧ (checkD (iterCheck RedisState.empty "user:1" 2 60 1000 none 3)
            "user:1" 2 60 1000 none).allowed = true) :=
  ⟨by decide, by decide, rfl,
   C10_same_second_collision RedisState.empty "user:1" 2 60 1000 none 3
     (by decide) (by decide) rfl⟩

/-- JSON values, as far as the denial bodies need them. -/
inductive Json where
  | str : String → Json
  | int : Int → Json
  | obj : List (String × Json) → Json

/-- First binding of a key in an association list of JSON fields. -/
def lookupField : List (String × Json) → String → Option Json
  | [], _ => none
  | (k, v) :: rest, key => if k = key then some v else lookupField rest key

/-- Field access on an object; `none` on non-objects. -/
def Json.get : Json → String → Option Json
  | .obj fields, key => lookupField fields key
  | _, _ => none

/-- Two-level field access. -/
def Json.get2 (j : Json) (k1 k2 : String) : Option Json :=
  match j.get k1 with
  | some j' => j'.get k2
  | none => none

/-- Whether a JSON value is an object. -/
def Json.isObj : Json → Bool
  | .obj _ => true
  | _ => false

/-- An HTTP response: transport status and JSON body. -/
structure HttpResponse where
  status : Int
  body : Json

/-- Python `s.startswith(p)`. -/
def pyStartsWith (s p : String) : Bool := List.isPrefixOf p.data s.data

/-- The flat JSON body built by `RateLimitExceededMiddleware.process_response`
for API requests: top-level `error` is the *string* `"Rate limit exceeded"`
and the numbers sit beside it, not inside a nested error object. -/
def rateLimitExceededBody (info : RateDecision) : Json :=
  .obj [("error", .str "Rate limit exceeded"),
        ("message", .str ("You have exceeded the rate limit of " ++ toString info.limit
          ++ " requests per " ++ toString info.window ++ " seconds")),
        ("retry_after", .int info.retry_after),
        ("limit", .int info.limit),
        ("remaining", .int info.remaining),
        ("reset_time", .int info.reset_time)]

/-- `RateLimitExceededMiddleware.process_response`: on a response whose status
is 429 it recomputes the rate info with a fresh limiter check
(`get_rate_limit_info`) and, when the request path starts with `/api/`,
replaces the response by a 429 with the flat JSON body; otherwise the
response passes through. -/
def process_response (st : RedisState) (key : String) (limit window now : Int)
    (identifier : Option String) (path : String) (response : HttpResponse) : HttpResponse :=
  if response.status = 429 then
    let info := checkD st key limit window now identifier
    if pyStartsWith path "/api/" then { status := 429, body := rateLimitExceededBody info }
    else response
  else response

/-- `handle_rate_limit_error_response(retry_after)`: a nested error object
with code `rate_limit_exceeded`, a fixed message and `type`; `retry_after` is
appended only when truthy (Python `if retry_after:`), and no `limit`,
`remaining` or `reset_time` fields exist. -/
def handle_rate_limit_error_response (retry_after : Option Int) : HttpResponse :=
  let base : List (String × Json) :=
    [("code", .str "rate_limit_exceeded"),
     ("message", .str "Rate limit exceeded. Please try again later."),
     ("type", .str "RateLimitError")]
  let fields :=
    match retry_after with
    | some r => if r = 0 then base else base ++ [("retry_after", .int r)]
    | none => base
  { status := 429, body := .obj [("error", .obj fields)] }

/-- **C6** is false as stated: a denied API request handled by
`RateLimitExceededMiddleware` carries `error` as the plain *string*
`"Rate limit exceeded"` (no nested object, no `code` field), and the body of
`handle_rate_limit_error_response` carries no `limit` field inside its error
object. -/
theorem C6_counterexample :
    Json.get (process_response RedisState.empty "user:1" 5 60 1000 none
        "/api/notifications/" ⟨429, Json.obj []⟩).body "error"
      = some (Json.str "Rate limit exceeded")
    ∧ Json.isObj (Json.str "Rate limit exceeded") = false
    ∧ Json.get2 (handle_rate_limit_error_response (some 60)).body "error" "limit" = none :=
  ⟨rfl, rfl, rfl⟩

/-- **C6** amended: every denied request does get transport status 429, but
the body is one of two shapes, neither the claimed nested six-field object:
the middleware (on `/api/` paths) produces the flat body
`{error: "Rate limit exceeded", message, retry_after, limit, remaining,
reset_time}`, while `handle_rate_limit_error_response` produces
`{error: {code: "rate_limit_exceeded", message, type, retry_after?}}` with
`retry_after` present exactly when truthy and with no `limit`, `remaining`
or `reset_time`. -/
theorem C6_denial_bodies (st : RedisState) (key : String) (limit window now : Int)
    (identifier : Option String) (path : String) (response : HttpResponse)
    (retry_after : Option Int)
    (h429 : response.status = 429) (hapi : pyStartsWith path "/api/" = true) :
    (process_response st key limit window now identifier path response).status = 429
    ∧ (process_response st key limit window now identifier path response).body
        = rateLimitExceededBody (checkD st key limit window now identifier)
    ∧ Json.get (rateLimitExceededBody (checkD st key limit window now identifier)) "error"
        = some (Json.str "Rate limit exceeded")
    ∧ Json.get (rateLimitExceededBody (checkD st key limit window now identifier)) "limit"
        = some (Json.int (checkD st key limit window now identifier).limit)
    ∧ Json.get (rateLimitExceededBody (checkD st key limit window now identifier)) "remaining"
        = some (Json.int (checkD st key limit window now identifier).remaining)
    ∧ Json.get (rateLimitExceededBody (checkD st key limit window now identifier)) "reset_time"
        = some (Json.int (checkD st key limit window now identifier).reset_time)
    ∧ (handle_rate_limit_error_response retry_after).status = 429
    ∧ Json.get2 (handle_rate_limit_error_response retry_after).body "error" "code"
        = some (Json.str "rate_limit_exceeded")
    ∧ Json.get2 (handle_rate_limit_error_response retry_after).body "error" "limit" = none
    ∧ Json.get2 (handle_rate_limit_error_response retry_after).body "error" "remaining" = none
    ∧ Json.get2 (handle_rate_limit_error_response retry_after).body "error" "reset_time" = none
    ∧ Json.get2 (handle_rate_limit_error_response retry_after).body "error" "retry_after"
        = (match retry_after with
           | some r => if r = 0 then none else some (Json.int r)
           | none => none) := by
  have hmw : process_response st key limit window now identifier path response
      = { status := 429,
          body := rateLimitExceededBody (checkD st key limit window now identifier) } := by
    unfold process_response
    rw [h429]
    simp [hapi]
  refine ⟨by rw [hmw], by rw [hmw], rfl, rfl, rfl, rfl, rfl, ?_, ?_, ?_, ?_, ?_⟩
  all_goals
    cases retry_after with
    | none => rfl
    | some r =>
        by_cases hr : r = 0 <;>
          simp [handle_rate_limit_error_response, hr, Json.get2, Json.get, lookupField]

/-- Closed instance of `C6_denial_bodies` at a concrete denied API request
and `retry_after = 60`. -/
theorem C6_denial_bodies_witness :
    (HttpResponse.mk 429 (Json.obj [])).status = 429
    ∧ pyStartsWith "/api/notifications/" "/api/" = true
    ∧ ((process_response RedisState.empty "user:1" 5 60 1000 none "/api/notifications/"
          (HttpResponse.mk 429 (Json.obj []))).status = 429
      ∧ (process_response RedisState.empty "user:1" 5 60 1000 none "/api/notifications/"
          (HttpResponse.mk 429 (Json.obj []))).body
          = rateLimitExceededBody (checkD RedisState.empty "user:1" 5 60 1000 none)
      ∧ Json.get (rateLimitExceededBody (checkD RedisState.empty "user:1" 5 60 1000 none)) "error"
          = some (Json.str "Rate limit exceeded")
      ∧ Json.get (rateLimitExceededBody (checkD RedisState.empty "user:1" 5 60 1000 none)) "limit"
          = some (Json.int (checkD RedisState.empty "user:1" 5 60 1000 none).limit)
      ∧ Json.get (rateLimitExceededBody (checkD RedisState.empty "user:1" 5 60 1000 none)) "remaining"
          = some (Json.int (checkD RedisState.empty "user:1" 5 60 1000 none).remaining)
      ∧ Json.get (rateLimitExceededBody (checkD RedisState.empty "user:1" 5 60 1000 none)) "reset_time"
          = some (Json.int (checkD RedisState.empty "user:1" 5 60 1000 none).reset_time)
      ∧ (handle_rate_limit_error_response (some 60)).status = 429
      ∧ Json.get2 (handle_rate_limit_error_response (some 60)).body "error" "code"
          = some (Json.str "rate_limit_exceeded")
      ∧ Json.get2 (handle_rate_limit_error_response (some 60)).body "error" "limit" = none
      ∧ Json.get2 (handle_rate_limit_error_response (some 60)).body "error" "remaining" = none
      ∧ Json.get2 (handle_rate_limit_error_response (some 60)).body "error" "reset_time" = none
      ∧ Json.get2 (handle_rate_limit_error_response (some 60)).body "error" "retry_after"
          = (match (some (60 : Int)) with
             | some r => if r = 0 then none else some (Json.int r)
             | none => none)) :=
  ⟨rfl, rfl,
   C6_denial_bodies RedisState.empty "user:1" 5 60 1000 none "/api/notifications/"
     (HttpResponse.mk 429 (Json.obj [])) (some 60) rfl rfl⟩

/-- Python `rate.split('/')` on the character list: splits at every `/`. -/
def splitOnSlash : List Char → List (List Char)
  | [] => [[]]
  | c :: rest =>
      let r := splitOnSlash rest
      if c = '/' then [] :: r
      else
        match r with
        | h :: t => (c :: h) :: t
        | [] => [[c]]

/-- Digit accumulation for `pyInt`. -/
def parseDigitsAux : List Char → Nat → Option Nat
  | [], acc => some acc
  | c :: rest, acc =>
      if c.isDigit then parseDigitsAux rest (acc * 10 + (c.toNat - '0'.toNat))
      else none

/-- Python `int(s)` on canonical integer literals: an optional sign followed
by at least one decimal digit (whitespace stripping and underscore grouping
are not modelled; no claim exercises them). -/
def pyInt : List Char → Option Int
  | [] => none
  | '-' :: rest =>
      match rest with
      | [] => none
      | _ => (parseDigitsAux rest 0).map (fun n => -(n : Int))
  | '+' :: rest =>
      match rest with
      | [] => none
      | _ => (parseDigitsAux rest 0).map (fun n => (n : Int))
  | cs => (parseDigitsAux cs 0).map (fun n => (n : Int))

/-- `RedisThrottle._parse_rate`: requires a `/`, unpacks exactly two parts,
and converts the first to an integer; every failure raises (is an error) at
construction time. -/
def parse_rate (rate : String) : Except String (Int × String) :=
  if (rate.data.contains '/') = false then
    Except.error "Rate must be in format number/period"
  else
    match splitOnSlash rate.data with
    | [l, p] =>
        match pyInt l with
        | some n => Except.ok (n, ⟨p⟩)
        | none => Except.error "invalid literal for int()"
    | _ => Except.error "too many values to unpack"

/-- `RedisThrottle._get_window_seconds`: the fixed period map; unknown
periods raise `Invalid period`. -/
def get_window_seconds (period : String) : Except String Int :=
  if period = "second" then Except.ok 1
  else if period = "minute" then Except.ok 60
  else if period = "hour" then Except.ok 3600
  else if period = "day" then Except.ok 86400
  else if period = "week" then Except.ok 604800
  else Except.error ("Invalid period: " ++ period)

/-- A constructed `RedisThrottle`: the rate string, optional scope, and the
parsed limit and window. -/
structure RedisThrottle where
  rate : String
  scope : Option String
  limit : Int
  window : Int
deriving DecidableEq

/-- `RedisThrottle.__init__(rate, scope)`: parses the rate and resolves the
window at construction time; any malformed rate or unrecognized period is an
error here. -/
def RedisThrottle.ofRate (rate : String) (scope : Option String) :
    Except String RedisThrottle := do
  let (l, p) ← parse_rate rate
  let w ← get_window_seconds p
  Except.ok { rate := rate, scope := scope, limit := l, window := w }

/-- `RedisThrottle.allow_request`: calls the limiter with the stored limit
and window; no rate-string parsing happens at request time. -/
def allow_request (t : RedisThrottle) (st : RedisState) (cache_key : String)
    (now : Int) (identifier : Option String) : Except String (Bool × RedisState) :=
  match is_allowed true st cache_key t.limit t.window now identifier with
  | .ok (d, st') => .ok (d.allowed, st')
  | .error e => .error e

/-- Whether an `Except` computation succeeded. -/
def exceptIsOk {α : Type} : Except String α → Bool
  | .ok _ => true
  | .error _ => false

/-- **C9**: `"100/hour"` constructs `limit=100, window=3600`; an unrecognized
period (`"100/fortnight"`), a missing `/`, a non-numeric count, or a surplus
part each raise at construction time; any successfully constructed throttle
has one of the five recognized windows; and a request-time check on a
constructed throttle succeeds (it re-parses nothing and, with a healthy
store, `is_allowed` is total). -/
theorem C9_rate_parsing (rate : String) (scope : Option String) (t : RedisThrottle)
    (st : RedisState) (cache_key : String) (now : Int) (identifier : Option String)
    (h : RedisThrottle.ofRate rate scope = Except.ok t) :
    RedisThrottle.ofRate "100/hour" none
        = Except.ok { rate := "100/hour", scope := none, limit := 100, window := 3600 }
    ∧ RedisThrottle.ofRate "100/fortnight" none
        = Except.error "Invalid period: fortnight"
    ∧ RedisThrottle.ofRate "100hour" none
        = Except.error "Rate must be in format number/period"
    ∧ RedisThrottle.ofRate "ten/hour" none = Except.error "invalid literal for int()"
    ∧ RedisThrottle.ofRate "100/hour/x" none = Except.error "too many values to unpack"
    ∧ t.window ∈ ([1, 60, 3600, 86400, 604800] : List Int)
    ∧ exceptIsOk (allow_request t st cache_key now identifier) = true := by
  refine ⟨by rfl, by rfl, by rfl, by rfl, by rfl, ?_, ?_⟩
  · unfold RedisThrottle.ofRate at h
    cases hp : parse_rate rate with
    | error e =>
        rw [hp] at h
        exact absurd h (by simp [Bind.bind, Except.bind])
    | ok v =>
        obtain ⟨l, p⟩ := v
        rw [hp] at h
        simp only [Bind.bind, Except.bind] at h
        cases hw : get_window_seconds p with
        | error e =>
            rw [hw] at h
            exact absurd h (by simp)
        | ok w =>
            rw [hw] at h
            injection h with h2
            rw [← h2]
            have hwmem : w ∈ ([1, 60, 3600, 86400, 604800] : List Int) := by
              unfold get_window_seconds at hw
              split_ifs at hw <;> simp_all
            simpa using hwmem
  · unfold allow_request
    rw [is_allowed_true_eq]
    rfl

/-- Closed instance of `C9_rate_parsing` at the successfully constructed
throttle for `"100/hour"`, checked on an empty store. -/
theorem C9_rate_parsing_witness :
    RedisThrottle.ofRate "100/hour" none
        = Except.ok { rate := "100/hour", scope := none, limit := 100, window := 3600 }
    ∧ (RedisThrottle.ofRate "100/hour" none
          = Except.ok { rate := "100/hour", scope := none, limit := 100, window := 3600 }
      ∧ RedisThrottle.ofRate "100/fortnight" none
          = Except.error "Invalid period: fortnight"
      ∧ RedisThrottle.ofRate "100hour" none
          = Except.error "Rate must be in format number/period"
      ∧ RedisThrottle.ofRate "ten/hour" none = Except.error "invalid literal for int()"
      ∧ RedisThrottle.ofRate "100/hour/x" none = Except.error "too many values to unpack"
      ∧ (RedisThrottle.mk "100/hour" none 100 3600).window
          ∈ ([1, 60, 3600, 86400, 604800] : List Int)
      ∧ exceptIsOk (allow_request (RedisThrottle.mk "100/hour" none 100 3600)
          RedisState.empty "user:1" 1000 none) = true) :=
  ⟨rfl,
   C9_rate_parsing "100/hour" none (RedisThrottle.mk "100/hour" none 100 3600)
     RedisState.empty "user:1" 1000 none rfl⟩

theorem digitChar_ne_colon {m : Nat} (hm : m < 10) : Nat.digitChar m ≠ ':' :=
  (by decide : ∀ m', m' < 10 → Nat.digitChar m' ≠ ':') m hm

theorem toDigitsCore_ne_colon :
    ∀ (fuel n : Nat) (ds : List Char), (∀ c ∈ ds, c ≠ ':') →
      ∀ c ∈ Nat.toDigitsCore 10 fuel n ds, c ≠ ':' := by
  intro fuel
  induction fuel with
  | zero =>
      intro n ds h
      simpa [Nat.toDigitsCore] using h
  | succ m ih =>
      intro n ds h c hc
      simp only [Nat.toDigitsCore] at hc
      split at hc
      · rcases List.mem_cons.mp hc with rfl | hc'
        · exact digitChar_ne_colon (Nat.mod_lt _ (by decide))
        · exact h c hc'
      · refine ih (n / 10) (Nat.digitChar (n % 10) :: ds) ?_ c hc
        intro d hd
        rcases List.mem_cons.mp hd with rfl | hd'
        · exact digitChar_ne_colon (Nat.mod_lt _ (by decide))
        · exact h d hd'

theorem natRepr_ne_colon (n : Nat) : ∀ c ∈ (Nat.repr n).data, c ≠ ':' := by
  intro c hc
  exact toDigitsCore_ne_colon (n + 1) n [] (by simp) c hc

theorem intToString_ne_colon (i : Int) : ∀ c ∈ (toString i).data, c ≠ ':' := by
  cases i with
  | ofNat m =>
      intro c hc
      exact natRepr_ne_colon m c hc
  | negSucc m =>
      intro c hc
      have hdata : (toString (Int.negSucc m)).data = '-' :: (Nat.repr (m + 1)).data := rfl
      rw [hdata] at hc
      rcases List.mem_cons.mp hc with rfl | hc'
      · decide
      · exact natRepr_ne_colon (m + 1) c hc'

theorem colon_split (a : List Char) : ∀ (b u v : List Char),
    (∀ c ∈ a, c ≠ ':') → (∀ c ∈ b, c ≠ ':') →
    a ++ ':' :: u = b ++ ':' :: v → a = b ∧ u = v := by
  induction a with
  | nil =>
      intro b u v _ hb h
      cases b with
      | nil => simpa using h
      | cons e es =>
          simp at h
          exact absurd h.1.symm (hb e (List.mem_cons_self e es))
  | cons d ds ih =>
      intro b u v ha hb h
      cases b with
      | nil =>
          simp at h
          exact absurd h.1 (ha d (List.mem_cons_self d ds))
      | cons e es =>
          simp at h
          obtain ⟨rfl, h2⟩ := h
          obtain ⟨h3, h4⟩ := ih es u v (fun c hc => ha c (List.mem_cons_of_mem _ hc))
            (fun c hc => hb c (List.mem_cons_of_mem _ hc)) h2
          exact ⟨by rw [h3], h4⟩

/-- Distinct logical keys always produce distinct Redis storage keys, for any
pair of buckets: the bucket suffix `window_start // window` is rendered with
no colon, so the storage key splits unambiguously at its last colon. -/
theorem redisKeyFor_inj (k1 k2 : String) (w1 n1 w2 n2 : Int) (hk : k1 ≠ k2) :
    redisKeyFor k1 w1 n1 ≠ redisKeyFor k2 w2 n2 := by
  intro h
  apply hk
  have hd := congrArg String.data h
  unfold redisKeyFor at hd
  simp only [String.data_append, List.append_assoc, List.singleton_append] at hd
  have hd2 := List.append_cancel_left hd
  have hrev := congrArg List.reverse hd2
  simp only [List.reverse_append, List.reverse_cons, List.append_assoc,
    List.singleton_append] at hrev
  obtain ⟨-, h2⟩ := colon_split _ _ _ _
    (fun c hc => intToString_ne_colon _ c (List.mem_reverse.mp hc))
    (fun c hc => intToString_ne_colon _ c (List.mem_reverse.mp hc))
    hrev
  exact String.ext (List.reverse_injective h2)

/-- The store left behind by a sequence of `is_allowed` calls for one key at
the given clock seconds (decisions are discarded; with a healthy store every
call succeeds, and a store failure would leave the store as is). -/
def runCalls (key : String) (limit window : Int) (identifier : Option String) :
    List Int → RedisState → RedisState
  | [], st => st
  | t :: ts, st =>
      match is_allowed true st key limit window t identifier with
      | .ok (_, st') => runCalls key limit window identifier ts st'
      | .error _ => st

theorem runCalls_cons (key : String) (limit window : Int) (identifier : Option String)
    (t : Int) (ts : List Int) (st : RedisState) :
    runCalls key limit window identifier (t :: ts) st
      = runCalls key limit window identifier ts (checkS st key limit window t identifier) := rfl

theorem checkS_other_key (st : RedisState) (key : String) (L W t : Int)
    (identifier : Option String) (k : String) (hne : k ≠ redisKeyFor key W t) :
    (checkS st key L W t identifier).zset k = st.zset k
    ∧ (checkS st key L W t identifier).ttl k = st.ttl k := by
  rw [checkS_eq]
  unfold applyPipeline
  exact ⟨by simp [hne], by simp [hne]⟩

theorem runCalls_other_key (keyA keyB : String) (LA WA : Int) (idA : Option String)
    (times : List Int) (st : RedisState) (wB nB : Int) (hk : keyA ≠ keyB) :
    (runCalls keyA LA WA idA times st).zset (redisKeyFor keyB wB nB)
        = st.zset (redisKeyFor keyB wB nB)
    ∧ (runCalls keyA LA WA idA times st).ttl (redisKeyFor keyB wB nB)
        = st.ttl (redisKeyFor keyB wB nB) := by
  induction times generalizing st with
  | nil => exact ⟨rfl, rfl⟩
  | cons t ts ih =>
      rw [runCalls_cons]
      have hne : redisKeyFor keyB wB nB ≠ redisKeyFor keyA WA t :=
        redisKeyFor_inj keyB keyA wB nB WA t (Ne.symm hk)
      obtain ⟨hz, ht⟩ := checkS_other_key st keyA LA WA t idA (redisKeyFor keyB wB nB) hne
      obtain ⟨hz', ht'⟩ := ih (checkS st keyA LA WA t idA)
      exact ⟨hz'.trans hz, ht'.trans ht⟩

/-- **C8**: key isolation.  For distinct logical keys `A ≠ B`: their storage
keys never collide (for any combination of windows and clock readings); any
sequence of `is_allowed` calls under `A` leaves both the stored entries and
the TTL of every storage key of `B` unchanged; the decision
(`allowed`, `remaining`, `reset_time`, `retry_after`, …) a later check
returns for `B` is the same as without those calls; and the storage key of
`A` is a function of the actor and the time-bucket alone (equal buckets give
the equal storage key). -/
theorem C8_key_isolation (keyA keyB : String) (st : RedisState)
    (LA WA LB WB nowB wB nB w1 n1 w2 n2 : Int)
    (idA idB : Option String) (times : List Int)
    (hk : keyA ≠ keyB)
    (hbucket : Int.fdiv (n1 - w1) w1 = Int.fdiv (n2 - w2) w2) :
    redisKeyFor keyA w1 n1 ≠ redisKeyFor keyB wB nB
    ∧ redisKeyFor keyA w1 n1 = redisKeyFor keyA w2 n2
    ∧ (runCalls keyA LA WA idA times st).zset (redisKeyFor keyB wB nB)
        = st.zset (redisKeyFor keyB wB nB)
    ∧ (runCalls keyA LA WA idA times st).ttl (redisKeyFor keyB wB nB)
        = st.ttl (redisKeyFor keyB wB nB)
    ∧ checkD (runCalls keyA LA WA idA times st) keyB LB WB nowB idB
        = checkD st keyB LB WB nowB idB := by
  obtain ⟨hz, ht⟩ := runCalls_other_key keyA keyB LA WA idA times st wB nB hk
  obtain ⟨hzB, -⟩ := runCalls_other_key keyA keyB LA WA idA times st WB nowB hk
  refine ⟨redisKeyFor_inj keyA keyB w1 n1 wB nB hk, ?_, hz, ht, ?_⟩
  · unfold redisKeyFor
    rw [hbucket]
  · rw [checkD_eq, checkD_eq]
    unfold count_before
    rw [hzB]

/-- Closed instance of `C8_key_isolation`: three calls under `user:1` leave
`user:2`'s stored entries, TTL and decision untouched; `user:1`'s storage
keys at seconds 1000 and 1010 (same bucket 15) coincide and never equal a
storage key of `user:2`. -/
theorem C8_key_isolation_witness :
    ("user:1" : String) ≠ "user:2"
    ∧ Int.fdiv (1000 - 60) 60 = Int.fdiv (1010 - 60) 60
    ∧ (redisKeyFor "user:1" 60 1000 ≠ redisKeyFor "user:2" 60 1000
      ∧ redisKeyFor "user:1" 60 1000 = redisKeyFor "user:1" 60 1010
      ∧ (runCalls "user:1" 5 60 none [1000, 1000, 1005] RedisState.empty).zset
            (redisKeyFor "user:2" 60 1000)
          = RedisState.empty.zset (redisKeyFor "user:2" 60 1000)
      ∧ (runCalls "user:1" 5 60 none [1000, 1000, 1005] RedisState.empty).ttl
            (redisKeyFor "user:2" 60 1000)
          = RedisState.empty.ttl (redisKeyFor "user:2" 60 1000)
      ∧ checkD (runCalls "user:1" 5 60 none [1000, 1000, 1005] RedisState.empty)
            "user:2" 5 60 1000 none
          = checkD RedisState.empty "user:2" 5 60 1000 none) :=
  ⟨by decide, by decide,
   C8_key_isolation "user:1" "user:2" RedisState.empty 5 60 5 60 1000 60 1000 60 1000 60 1010
     none none [1000, 1000, 1005] (by decide) (by decide)⟩
